import Mathlib

/-!
Shallow embedding of `build/tools/roomservice.py` (LineageOS roomservice tool).

The script derives a device identifier from a product identifier, searches a
hosted code platform for a matching device repository, resolves a usable
revision through a 3-tier fallback chain, records entries into a local XML
manifest (`.repo/local_manifests/roomservice.xml`), and recursively expands
per-repository dependency files.

Modelling conventions:
* XML manifest documents are lists of `<project>` elements; only the four
  attributes the script reads or writes are modelled, each as `Option String`
  because `ElementTree.get` returns `None` for a missing attribute.
* The three manifest sources consulted by `is_in_manifest` (the writable
  local roomservice manifest, the resolved main manifest, the lineage
  snippet) form a `ManifestState`.  Reading a file that is absent or
  unparsable yields an empty document in the script; here the corresponding
  list is simply empty.
* Network responses (branch and tag lists, search results) and filesystem
  facts (dependency files, directory existence) are inputs to the embedded
  functions, since the script consumes them as plain data.
* Python string operations used by the script (`split(' ')`, `replace`,
  slicing after `index('_')`) are re-implemented structurally over
  `List Char` so that every definition evaluates inside the kernel.
-/

namespace Roomservice

/-- A `<project>` manifest element.  `ElementTree.get` returns `None` for an
absent attribute, hence every attribute is an `Option String`. -/
structure Project where
  path : Option String
  name : Option String
  remote : Option String
  revision : Option String
deriving DecidableEq

/-- A manifest document: the ordered list of its `<project>` children. -/
abbrev Manifest := List Project

/-- The three manifest documents consulted by `is_in_manifest`
(roomservice.py lines 139-170): the writable local manifest
`.repo/local_manifests/roomservice.xml`, the resolved main manifest, and the
snippet `.repo/manifests/snippets/lineage.xml`. -/
structure ManifestState where
  roomservice : Manifest
  mainManifest : Manifest
  lineageSnippet : Manifest
deriving DecidableEq

/-- A record of a `lineage.dependencies` file (or the `adding` record built
in the main block, line 279): `{'repository': .., 'target_path': ..}` with an
optional `'branch'` key. -/
structure DepRecord where
  repository : String
  target_path : String
  branch : Option String
deriving DecidableEq

/-- Embeds `is_in_manifest(projectpath)` (lines 139-170): scan the local
roomservice manifest, then the main manifest, then the lineage snippet, and
report whether any `<project>` child has `path` attribute equal to
`projectpath`.  Each document is re-read from disk on every call, which is
why the function takes the persisted `ManifestState`. -/
def is_in_manifest (st : ManifestState) (projectpath : String) : Bool :=
  st.roomservice.any (fun localpath => localpath.path == some projectpath)
    || st.mainManifest.any (fun localpath => localpath.path == some projectpath)
    || st.lineageSnippet.any (fun localpath => localpath.path == some projectpath)

/-- The `<project>` element built for one repository record inside
`add_to_manifest` (lines 188-203): `path`/`remote`/`name` attributes always
set, `revision` set from the record's own `branch` if present, else from the
fallback branch if present, else omitted. -/
def projectFor (repository : DepRecord) (fallback_branch : Option String) : Project :=
  { path := some repository.target_path
    name := some ("LineageOS/" ++ repository.repository)
    remote := some "github"
    revision :=
      match repository.branch with
      | some b => some b
      | none => fallback_branch }

/-- Embeds `add_to_manifest(repositories, fallback_branch)` (lines 172-212).
The in-memory document `lm` starts as the on-disk local manifest; the loop
appends one element per record, skipping records whose `target_path` the
membership check accepts.  Crucially, `is_in_manifest` re-reads the on-disk
files, and the updated document is written back only after the loop, so every
membership test inside one call is made against the state `st` as it was on
entry, not against the partially extended `lm`. -/
def add_to_manifest (st : ManifestState) (repositories : List DepRecord)
    (fallback_branch : Option String) : ManifestState :=
  let lm := repositories.foldl
    (fun lm repository =>
      if is_in_manifest st repository.target_path then lm
      else lm ++ [projectFor repository fallback_branch])
    st.roomservice
  { st with roomservice := lm }

/-- The filesystem facts `fetch_dependencies` consults: the parsed content of
a dependency file at a given path (`None` when `os.path.exists` is false) and
`os.path.isdir` for a target path. -/
structure FetchEnv where
  dependenciesFile : String → Option (List DepRecord)
  isdir : String → Bool

/-- Observable effects of one invocation of `fetch_dependencies` (lines
214-244), recursion unexpanded: the resulting manifest state, the three lists
built by the loop, the argument list of the `repo sync` invocation (if any),
and the list of recursive `fetch_dependencies` calls with the fallback branch
each one receives. -/
structure FetchOutcome where
  finalState : ManifestState
  fetch_list : List DepRecord
  syncable_repos : List String
  verify_repos : List String
  syncCommandPaths : Option (List String)
  recursiveCalls : List (String × Option String)
deriving DecidableEq

/-- Embeds one invocation of `fetch_dependencies(repo_path, fallback_branch)`
(lines 214-244).  For each dependency the loop appends: to `fetch_list` and
`syncable_repos` when the target path is not in any manifest; to
`verify_repos` unconditionally; and to `syncable_repos` (again) when the
target path is not a directory on disk.  `add_to_manifest` runs only when
`fetch_list` is nonempty, `repo sync` only when `syncable_repos` is nonempty,
and line 244 recurses as `fetch_dependencies(deprepo)` for every entry of
`verify_repos`. -/
def fetch_dependencies_step (env : FetchEnv) (st : ManifestState)
    (repo_path : String) (fallback_branch : Option String) : FetchOutcome :=
  match env.dependenciesFile (repo_path ++ "/lineage.dependencies") with
  | none =>
      { finalState := st
        fetch_list := []
        syncable_repos := []
        verify_repos := []
        syncCommandPaths := none
        recursiveCalls := [] }
  | some dependencies =>
      let acc := dependencies.foldl
        (fun acc dependency =>
          let fl := acc.1
          let sy := acc.2.1
          let vr := acc.2.2
          let fl2 := if is_in_manifest st dependency.target_path then fl
                     else fl ++ [dependency]
          let sy2 := if is_in_manifest st dependency.target_path then sy
                     else sy ++ [dependency.target_path]
          let vr2 := vr ++ [dependency.target_path]
          let sy3 := if env.isdir dependency.target_path then sy2
                     else sy2 ++ [dependency.target_path]
          (fl2, sy3, vr2))
        (([], [], []) : List DepRecord × List String × List String)
      let fetch_list := acc.1
      let syncable_repos := acc.2.1
      let verify_repos := acc.2.2
      let newState := if fetch_list.isEmpty then st
                      else add_to_manifest st fetch_list fallback_branch
      { finalState := newState
        fetch_list := fetch_list
        syncable_repos := syncable_repos
        verify_repos := verify_repos
        syncCommandPaths := if syncable_repos.isEmpty then none
                            else some syncable_repos
        recursiveCalls := verify_repos.map (fun deprepo => (deprepo, none)) }

/-- One element of a GitHub branches or tags response: only the `'name'`
field is read by the script (`has_branch`, line 247; the bail diagnostic,
line 296). -/
structure Branch where
  name : String
deriving DecidableEq

/-- Embeds `has_branch(branches, revision)` (lines 246-247):
`revision in [branch['name'] for branch in branches]`. -/
def has_branch (branches : List Branch) (revision : String) : Bool :=
  (branches.map (fun branch => branch.name)).contains revision

/-- Python `s.split(' ')` on the character list of `s`: split at every single
space character, keeping empty fields (`''.split(' ') == ['']`,
`'a  b'.split(' ') == ['a', '', 'b']`). -/
def splitSpaceAux (cur : List Char) : List Char → List (List Char)
  | [] => [cur.reverse]
  | c :: cs =>
      if c == ' ' then cur.reverse :: splitSpaceAux [] cs
      else splitSpaceAux (c :: cur) cs

/-- Python `s.split(' ')`. -/
def splitSpace (s : String) : List String :=
  (splitSpaceAux [] s.data).map String.mk

/-- Embeds lines 283-284: `os.getenv('ROOMSERVICE_BRANCHES')` is consumed
only when truthy (unset and empty are both falsy, modelled as `""`), then
`list(filter(bool, value.split(' ')))` drops empty fields. -/
def roomserviceBranches (envVal : String) : List String :=
  if envVal == "" then []
  else (splitSpace envVal).filter (fun fallback => fallback != "")

/-- Embeds the revision-resolution chain of the main block (lines 265-299) as
a function of the fetched branch list, the fetched tag list, the default
revision and the `ROOMSERVICE_BRANCHES` value.  The tag list is merged into
the working list only when the default revision is not among the branch names
(line 273); a second membership check (line 282) then either accepts the
default revision or scans the fallback list in order, and `none` is the bail
path (lines 291-299). -/
def resolveRevision (branches tags : List Branch) (default_revision envVal : String) :
    Option String :=
  let result := if has_branch branches default_revision then branches
                else branches ++ tags
  if has_branch result default_revision then some default_revision
  else (roomserviceBranches envVal).find? (fun fallback => has_branch result fallback)

/-- Python `prefix`-consumption helper: `dropLit ps s` returns `some rest`
when `s` starts with the literal character list `ps`, and `none` otherwise. -/
def dropLit : List Char → List Char → Option (List Char)
  | [], s => some s
  | _ :: _, [] => none
  | p :: ps, c :: cs => if c == p then dropLit ps cs else none

/-- Python `s.replace(needle, repl)` (all non-overlapping occurrences, left
to right), written with a structural fuel argument so that it evaluates in
the kernel.  A successful match consumes at least one character whenever the
needle is nonempty, so fuel `s.length` always suffices; the empty-needle
behaviour of Python (interleaving) is not modelled, because the script only
ever replaces the nonempty needles `"android_device_"` and `"_" + device`. -/
def replaceListGo (needle repl : List Char) : Nat → List Char → List Char
  | _, [] => []
  | 0, s => s
  | Nat.succ fuel, c :: cs =>
      match needle, dropLit needle (c :: cs) with
      | _ :: _, some rest => repl ++ replaceListGo needle repl fuel rest
      | _, _ => c :: replaceListGo needle repl fuel cs

/-- Python `s.replace(needle, repl)` for nonempty needles. -/
def stringReplace (s needle repl : String) : String :=
  String.mk (replaceListGo needle.data repl.data s.data.length s.data)

/-- Embeds line 263:
`repo_name.replace("android_device_", "").replace("_" + device, "")`. -/
def manufacturerOf (repo_name device : String) : String :=
  stringReplace (stringReplace repo_name "android_device_" "") ("_" ++ device) ""

/-- Outcome of processing one accepted search candidate in the main block:
either the bail path (lines 291-299, carrying the printed default revision
and the printed list of branch/tag names) or the proceed path (lines 301-309,
carrying the derived repository path and the fallback branch used for the
manifest entry and the dependency walk). -/
inductive MainOutcome where
  | bailed (default_revision : String) (branchNames : List String)
  | proceeded (repo_path : String) (fallback_branch : Option String)
deriving DecidableEq

/-- Embeds the per-candidate body of the main block (lines 261-309) up to the
effects on the manifest state: merge tags into the branch list when needed,
build `repo_path` and the `adding` record, then either append the entry with
the resolved fallback branch, or bail leaving the state untouched. -/
def processFoundRepo (repo_name device : String) (branches tags : List Branch)
    (default_revision envVal : String) (st : ManifestState) :
    ManifestState × MainOutcome :=
  let result := if has_branch branches default_revision then branches
                else branches ++ tags
  let repo_path := "device/" ++ manufacturerOf repo_name device ++ "/" ++ device
  let adding : DepRecord := ⟨repo_name, repo_path, none⟩
  if has_branch result default_revision then
    (add_to_manifest st [adding] none, MainOutcome.proceeded repo_path none)
  else
    match (roomserviceBranches envVal).find? (fun fallback => has_branch result fallback) with
    | some fallback_branch =>
        (add_to_manifest st [adding] (some fallback_branch),
         MainOutcome.proceeded repo_path (some fallback_branch))
    | none =>
        (st, MainOutcome.bailed default_revision
              (result.map (fun branch => branch.name)))

/-- A token of the regular expression `^android_device_[^_]*_{device}$` once
the fixed parts are expanded: a literal character or the metacharacter `.`
(any single character). -/
inductive RTok where
  | lit (c : Char)
  | anyChar
deriving DecidableEq

/-- Anchored matching of a star-free token list against a character list.
The exhausted-pattern case embeds the final `$` of the line-260 pattern:
Python's `$` accepts the exact end of the string and also the position just
before one trailing newline.  `anyChar` (the metacharacter `.`) matches any
character except a newline, as Python's `.` does without `re.DOTALL`. -/
def matchToks : List RTok → List Char → Bool
  | [], cs => cs == [] || cs == ['\n']
  | RTok.lit c :: ts, d :: cs => (d == c) && matchToks ts cs
  | RTok.anyChar :: ts, d :: cs => (d != '\n') && matchToks ts cs
  | _ :: _, [] => false

/-- Anchored matching of `[^_]*` followed by the token list `ts`: either `ts`
matches here, or the star consumes one more non-underscore character. -/
def matchStarThen (ts : List RTok) : List Char → Bool
  | [] => matchToks ts []
  | c :: cs => matchToks ts (c :: cs) || ((c != '_') && matchStarThen ts cs)

/-- The metacharacters of Python's `re` syntax: a pattern fragment built
only from characters outside this list matches exactly its literal self. -/
def regexSpecials : List Char :=
  ['.', '^', '$', '*', '+', '?', '\x7b', '\x7d', '[', ']', '\\', '|', '(', ')']

/-- The token list the device identifier contributes to the pattern of line
260.  The identifier is interpolated into the regular expression unescaped,
so its metacharacters are interpreted; of those, `.` (any single character)
is modelled and the others are not, so this translation of the interpolation
is faithful exactly for device identifiers whose characters are either `.`
or outside `regexSpecials`. -/
def deviceToks (device : String) : List RTok :=
  device.data.map (fun c => if c == '.' then RTok.anyChar else RTok.lit c)

/-- Embeds the candidate filter of line 260:
`re.match(f"^android_device_[^_]*_{device}$", repo_name)` viewed as a
Boolean.  The name must consist of the literal `android_device_`, then a run
of non-underscore characters, then `_`, then a segment matching the device
identifier interpreted as a pattern fragment, followed by the end of the
string (or one trailing newline, which `$` also accepts).  Faithful on the
domain of `deviceToks`: device identifiers whose characters are `.` or
non-metacharacters. -/
def repoNameMatches (device repo_name : String) : Bool :=
  match dropLit "android_device_".data repo_name.data with
  | some rest => matchStarThen (RTok.lit '_' :: deviceToks device) rest
  | none => false

/-- Modelled from the spec: the filter as the spec describes it, with the
device segment compared literally.  Kept for comparison with
`repoNameMatches`, which embeds the source. -/
def literalNameMatches (device repo_name : String) : Bool :=
  match dropLit "android_device_".data repo_name.data with
  | some rest => matchStarThen (RTok.lit '_' :: device.data.map RTok.lit) rest
  | none => false

/-- One search-result item; only the `'name'` field feeds the filter. -/
structure SearchItem where
  name : String
deriving DecidableEq

/-- Embeds the selection loop of lines 258-309: candidates are scanned in API
response order and the first one accepted by the line-260 filter is processed
(the loop body ends in `sys.exit()`). -/
def selectedRepository (device : String) (repositories : List SearchItem) :
    Option SearchItem :=
  repositories.find? (fun repository => repoNameMatches device repository.name)

/-- Embeds the device derivation of lines 45-48: `product.index("_")` finds
the first underscore and the slice keeps everything after it; the `except`
branch (no underscore) keeps the product identifier unchanged.  This helper
returns the character list after the first underscore, or `none`. -/
def afterFirstUnderscoreAux : List Char → Option (List Char)
  | [] => none
  | c :: cs => if c == '_' then some cs else afterFirstUnderscoreAux cs

/-- Embeds lines 45-48: `device = product[product.index("_") + 1:]` with
`device = product` on `ValueError`. -/
def deriveDevice (product : String) : String :=
  match afterFirstUnderscoreAux product.data with
  | some cs => String.mk cs
  | none => product

/-- The manner in which one termination site of the script ends the
process. -/
inductive ExitKind where
  | implicitEnd
  | exitNoCode
  | exitWithCode (code : Nat)
  | uncaughtError
deriving DecidableEq

/-- One place where the script can terminate: source line and exit manner. -/
structure TerminationSite where
  line : Nat
  description : String
  kind : ExitKind
deriving DecidableEq

/-- `true` exactly for terminations through `sys.exit` with an explicit
integer argument. -/
def isExplicitExitCode : ExitKind → Bool
  | ExitKind.exitWithCode _ => true
  | _ => false

/-- The termination sites of roomservice.py, read off the module body.
Uncaught-error sites are the statements that perform fallible work outside
any `try` block; the remaining sites are the literal `sys.exit` calls and the
fall-off-the-end path. -/
def terminationSites : List TerminationSite :=
  [ -- line 42: `product = sys.argv[1]` raises IndexError when no argument.
    ⟨42, "missing product argument", ExitKind.uncaughtError⟩,
    -- line 79: search URLError handler calls `sys.exit(1)`.
    ⟨79, "search request transport failure", ExitKind.exitWithCode 1⟩,
    -- line 82: search ValueError handler calls `sys.exit(1)`.
    ⟨82, "search response parse failure", ExitKind.exitWithCode 1⟩,
    -- line 113: `ElementTree.parse(".repo/manifest.xml")` outside any try.
    ⟨113, "main manifest read or parse failure", ExitKind.uncaughtError⟩,
    -- line 255: end of the depsonly branch, `sys.exit()`.
    ⟨255, "dependencies-only mode completed", ExitKind.exitNoCode⟩,
    -- line 270: branch-list fetch, urlopen outside any try.
    ⟨270, "branch list fetch failure", ExitKind.uncaughtError⟩,
    -- line 276: tag-list fetch, urlopen outside any try.
    ⟨276, "tag list fetch failure", ExitKind.uncaughtError⟩,
    -- line 299: revision-resolution bail, `sys.exit()`.
    ⟨299, "no usable revision found", ExitKind.exitNoCode⟩,
    -- line 309: device repository fully processed, `sys.exit()`.
    ⟨309, "device repository processed", ExitKind.exitNoCode⟩,
    -- line 313: not-found message printed, module body falls off the end.
    ⟨313, "no candidate matched, implicit exit", ExitKind.implicitEnd⟩ ]

/-- Number of `<project>` elements of one document whose `path` attribute
equals the given path. -/
def entriesFor (m : Manifest) (projectpath : String) : Nat :=
  m.countP (fun p => p.path == some projectpath)

/-- Number of entries for one path across the union of the three manifest
documents. -/
def stateEntriesFor (st : ManifestState) (projectpath : String) : Nat :=
  entriesFor st.roomservice projectpath + entriesFor st.mainManifest projectpath
    + entriesFor st.lineageSnippet projectpath

/-- The empty manifest state: all three documents absent or empty. -/
def emptyState : ManifestState := ⟨[], [], []⟩

/-- A batch of two dependency records sharing one target path, as a
`lineage.dependencies` file may well contain. -/
def dupBatch : List DepRecord :=
  [⟨"android_vendor_a", "vendor/dup", none⟩,
   ⟨"android_vendor_b", "vendor/dup", none⟩]

/-- A batch of one dependency record. -/
def singleBatch : List DepRecord := [⟨"android_vendor_a", "vendor/a", none⟩]

/-- The dependency record of the spec's dependency-expansion scenario. -/
def c4Dep : DepRecord := ⟨"android_vendor_foo", "vendor/foo", none⟩

/-- The filesystem of the spec's dependency-expansion scenario: a dependency
file at `device/acme/widget` declaring `vendor/foo`, no other dependency
files, and no directory present on disk. -/
def c4Env : FetchEnv :=
  ⟨fun p => if p == "device/acme/widget/lineage.dependencies" then some [c4Dep]
            else none,
   fun _ => false⟩

/-- A one-dependency filesystem used to exercise the recursion of line 244
under a nontrivial outer fallback branch. -/
def c10Env : FetchEnv :=
  ⟨fun p => if p == "device/acme/widget/lineage.dependencies"
            then some [⟨"android_vendor_bar", "vendor/bar", none⟩]
            else none,
   fun _ => true⟩

/-! ### Helper lemmas -/

/-- A left fold that either keeps the accumulator or appends one element is
an append of a filtered map. -/
theorem foldl_skip_append {α β : Type} (c : α → Bool) (f : α → β) (l : List α) :
    ∀ init : List β,
      l.foldl (fun acc a => if c a then acc else acc ++ [f a]) init
        = init ++ (l.filter (fun a => !c a)).map f := by
  induction l with
  | nil => intro init; simp
  | cons a l ih =>
      intro init
      by_cases h : c a
      · simp [List.foldl_cons, h, ih]
      · simp [List.foldl_cons, h, ih]

/-- `add_to_manifest` appends, to the local manifest only, one element per
record whose membership test (against the entry state) failed. -/
theorem add_to_manifest_eq (st : ManifestState) (rs : List DepRecord)
    (fb : Option String) :
    add_to_manifest st rs fb =
      { st with roomservice := st.roomservice ++
          ((rs.filter (fun r => !is_in_manifest st r.target_path)).map
            (fun r => projectFor r fb)) } := by
  unfold add_to_manifest
  rw [foldl_skip_append]

/-- The membership test accepts a path exactly when the union of the three
documents holds at least one entry for it. -/
theorem is_in_manifest_iff_pos (st : ManifestState) (pp : String) :
    is_in_manifest st pp = true ↔ 0 < stateEntriesFor st pp := by
  simp [is_in_manifest, stateEntriesFor, entriesFor, add_pos_iff]

/-- Membership after extending the local manifest document. -/
theorem is_in_manifest_append (st : ManifestState) (x : Manifest) (pp : String) :
    is_in_manifest { st with roomservice := st.roomservice ++ x } pp
      = (is_in_manifest st pp || x.any (fun p => p.path == some pp)) := by
  simp only [is_in_manifest, List.any_append]
  cases st.roomservice.any (fun p => p.path == some pp) <;>
    cases x.any (fun p => p.path == some pp) <;>
    cases st.mainManifest.any (fun p => p.path == some pp) <;>
    cases st.lineageSnippet.any (fun p => p.path == some pp) <;> rfl

/-- Entry counting distributes over document concatenation. -/
theorem entriesFor_append (a b : Manifest) (pp : String) :
    entriesFor (a ++ b) pp = entriesFor a pp + entriesFor b pp := by
  simp [entriesFor]

/-- Counting entries among freshly built elements counts the records whose
target path is the one sought. -/
theorem entriesFor_map_projectFor (l : List DepRecord) (fb : Option String)
    (pp : String) :
    entriesFor (l.map (fun r => projectFor r fb)) pp
      = l.countP (fun r => r.target_path == pp) := by
  simp only [entriesFor, List.countP_map]
  refine List.countP_congr (fun r _ => ?_)
  simp [projectFor, Function.comp]

/-- Entry counts across the union after one `add_to_manifest` call. -/
theorem stateEntriesFor_add (st : ManifestState) (rs : List DepRecord)
    (fb : Option String) (pp : String) :
    stateEntriesFor (add_to_manifest st rs fb) pp
      = stateEntriesFor st pp
        + (rs.filter (fun r => !is_in_manifest st r.target_path)).countP
            (fun r => r.target_path == pp) := by
  rw [add_to_manifest_eq]
  simp only [stateEntriesFor, entriesFor_append, entriesFor_map_projectFor]
  omega

/-- Every record of the batch is present after the call. -/
theorem is_in_manifest_add_of_mem (st : ManifestState) (rs : List DepRecord)
    (fb : Option String) (r : DepRecord) (hr : r ∈ rs) :
    is_in_manifest (add_to_manifest st rs fb) r.target_path = true := by
  rw [add_to_manifest_eq, is_in_manifest_append]
  by_cases h : is_in_manifest st r.target_path
  · simp [h]
  · refine Bool.or_eq_true_iff.mpr (Or.inr ?_)
    refine List.any_eq_true.mpr ⟨projectFor r fb, List.mem_map_of_mem _ ?_, by simp [projectFor]⟩
    exact List.mem_filter.mpr ⟨hr, by simp [h]⟩

/-- `find?` is unaffected by first filtering out elements the predicate
rejects anyway. -/
theorem find?_filter_of_imp {α : Type} (p q : α → Bool)
    (h : ∀ x, q x = false → p x = false) (l : List α) :
    (l.filter q).find? p = l.find? p := by
  induction l with
  | nil => rfl
  | cons a l ih =>
      by_cases hq : q a = true
      · by_cases hp : p a = true
        · simp [List.filter_cons, hq, hp]
        · simp [List.filter_cons, hq, hp, ih]
      · have hp : p a = false := h a (Bool.eq_false_iff.mpr hq)
        simp [List.filter_cons, hq, hp, ih]

/-! ### Claims -/

/-- C7: for every product identifier containing an underscore, the derived
device identifier is the substring after the first underscore; without an
underscore, it is the product identifier unchanged. -/
theorem deriveDevice_after_first_underscore (product a b : String) :
    ('_' ∉ product.data → deriveDevice product = product) ∧
    ('_' ∉ a.data → deriveDevice (a ++ "_" ++ b) = b) := by
  have aux_none : ∀ l : List Char, '_' ∉ l → afterFirstUnderscoreAux l = none := by
    intro l
    induction l with
    | nil => intro _; rfl
    | cons c cs ih =>
        intro h
        have hc : c ≠ '_' := fun e => h (by simp [e])
        have hcs : '_' ∉ cs := fun hm => h (by simp [hm])
        simp [afterFirstUnderscoreAux, hc, ih hcs]
  have aux_app : ∀ l r : List Char, '_' ∉ l →
      afterFirstUnderscoreAux (l ++ '_' :: r) = some r := by
    intro l r
    induction l with
    | nil => intro _; simp [afterFirstUnderscoreAux]
    | cons c cs ih =>
        intro h
        have hc : c ≠ '_' := fun e => h (by simp [e])
        have hcs : '_' ∉ cs := fun hm => h (by simp [hm])
        simp [afterFirstUnderscoreAux, hc, ih hcs]
  constructor
  · intro h
    unfold deriveDevice
    rw [aux_none product.data h]
  · intro h
    unfold deriveDevice
    have hdata : (a ++ "_" ++ b).data = a.data ++ '_' :: b.data := by
      simp
    rw [hdata, aux_app a.data b.data h]

/-- C7 witness: concrete product identifiers with and without an
underscore. -/
theorem deriveDevice_after_first_underscore_witness :
    deriveDevice "lineage_bacon" = "bacon" ∧ deriveDevice "bacon" = "bacon" := by
  constructor
  · have h := (deriveDevice_after_first_underscore "x" "lineage" "bacon").2
      (by decide)
    simpa using h
  · exact (deriveDevice_after_first_underscore "bacon" "x" "y").1 (by decide)

/-- C3: the membership test accepts a path exactly when at least one of the
three manifest documents holds an entry with that exact path, wherever it
lives; the answer is invariant under rotating the three sources. -/
theorem is_in_manifest_union_semantics (a b c : Manifest) (projectpath : String) :
    (is_in_manifest ⟨a, b, c⟩ projectpath = true ↔
      ((∃ p ∈ a, p.path = some projectpath) ∨ (∃ p ∈ b, p.path = some projectpath)
        ∨ (∃ p ∈ c, p.path = some projectpath))) ∧
    is_in_manifest ⟨a, b, c⟩ projectpath = is_in_manifest ⟨b, c, a⟩ projectpath := by
  constructor
  · simp [is_in_manifest, or_assoc]
  · simp only [is_in_manifest]
    cases a.any (fun p => p.path == some projectpath) <;>
      cases b.any (fun p => p.path == some projectpath) <;>
      cases c.any (fun p => p.path == some projectpath) <;> rfl

/-- C3 witness: a path held only by the main manifest is reported, the union
reading and the rotation equality instantiated there. -/
theorem is_in_manifest_union_semantics_witness :
    (is_in_manifest ⟨[], [⟨some "vendor/x", none, none, none⟩], []⟩ "vendor/x" = true ↔
      ((∃ p ∈ ([] : Manifest), p.path = some "vendor/x")
        ∨ (∃ p ∈ ([⟨some "vendor/x", none, none, none⟩] : Manifest),
            p.path = some "vendor/x")
        ∨ (∃ p ∈ ([] : Manifest), p.path = some "vendor/x"))) ∧
    is_in_manifest ⟨[], [⟨some "vendor/x", none, none, none⟩], []⟩ "vendor/x"
      = is_in_manifest ⟨[⟨some "vendor/x", none, none, none⟩], [], []⟩ "vendor/x" :=
  is_in_manifest_union_semantics [] [⟨some "vendor/x", none, none, none⟩] [] "vendor/x"

/-- C10: every recursive call issued at line 244 passes no fallback branch,
whatever fallback branch the enclosing invocation received. -/
theorem fetch_dependencies_recursive_calls_no_fallback (env : FetchEnv)
    (st : ManifestState) (repo_path : String) (fallback_branch : Option String) :
    ∀ call ∈ (fetch_dependencies_step env st repo_path fallback_branch).recursiveCalls,
      call.2 = none := by
  intro call hcall
  unfold fetch_dependencies_step at hcall
  cases hdep : env.dependenciesFile (repo_path ++ "/lineage.dependencies") with
  | none => rw [hdep] at hcall; simp at hcall
  | some dependencies =>
      rw [hdep] at hcall
      simp only [List.mem_map] at hcall
      obtain ⟨p, -, rfl⟩ := hcall
      rfl

/-- C10 witness: with an outer fallback branch supplied, the recursion into
the sole dependency still carries none. -/
theorem fetch_dependencies_recursive_calls_no_fallback_witness :
    (("vendor/bar", (none : Option String)) ∈
      (fetch_dependencies_step c10Env emptyState "device/acme/widget"
        (some "lineage-18.1")).recursiveCalls) ∧
    (("vendor/bar", (none : Option String)).2 = none) :=
  ⟨by decide,
   fetch_dependencies_recursive_calls_no_fallback c10Env emptyState
     "device/acme/widget" (some "lineage-18.1") ("vendor/bar", none) (by decide)⟩

/-- C9 fails as stated: the two search-failure handlers terminate through
`sys.exit(1)`, an explicit exit code, which is none of the three manners the
claim allows. -/
theorem termination_uses_exit_code_one :
    ¬ ∀ s ∈ terminationSites,
        s.kind = ExitKind.implicitEnd ∨ s.kind = ExitKind.exitNoCode
          ∨ s.kind = ExitKind.uncaughtError := by
  decide

/-- C9 amended: every termination is implicit success, a plain `sys.exit()`,
an uncaught error, or one of the two search-failure handlers at lines 79 and
82, which are the only sites exiting with an explicit code and both use the
same code 1 (no distinct codes per failure class). -/
theorem terminationSites_classification :
    terminationSites.all (fun s =>
        s.kind == ExitKind.implicitEnd || s.kind == ExitKind.exitNoCode
          || s.kind == ExitKind.uncaughtError
          || s.kind == ExitKind.exitWithCode 1) = true
    ∧ (terminationSites.filter (fun s => isExplicitExitCode s.kind)).map
        (fun s => s.line) = [79, 82] := by
  constructor
  · decide
  · decide

/-- C1: the resolved revision follows the 3-tier order — the default revision
when it is among the branch names; else the default revision when it is among
the combined branch+tag names; else the first entry of the space-split
`ROOMSERVICE_BRANCHES` value that is among the combined names; else failure
(`none`).  The hypothesis records that no branch or tag carries the empty
name (the script drops empty fields of the split with `filter(bool)`, which
is observable only against an empty branch name). -/
theorem resolveRevision_three_tier_order (branches tags : List Branch)
    (default_revision envVal : String)
    (hne : "" ∉ (branches ++ tags).map (fun branch => branch.name)) :
    resolveRevision branches tags default_revision envVal =
      (if has_branch branches default_revision then some default_revision
       else if has_branch (branches ++ tags) default_revision then
         some default_revision
       else (splitSpace envVal).find?
              (fun fallback => has_branch (branches ++ tags) fallback)) := by
  have hP : has_branch (branches ++ tags) "" = false := by
    simp only [has_branch]
    rw [Bool.eq_false_iff]
    intro hc
    exact hne (List.contains_iff_exists_mem_beq.mp hc |>.elim
      (fun x hx => by
        obtain ⟨hx1, hx2⟩ := hx
        obtain rfl : "" = x := by simpa using hx2
        exact hx1))
  unfold resolveRevision
  by_cases hb : has_branch branches default_revision = true
  · simp [hb]
  · have hb' : has_branch branches default_revision = false := Bool.eq_false_iff.mpr hb
    by_cases hc : has_branch (branches ++ tags) default_revision = true
    · simp [hb', hc]
    · have hc' : has_branch (branches ++ tags) default_revision = false :=
        Bool.eq_false_iff.mpr hc
      simp only [hb', hc', Bool.false_eq_true, if_false]
      unfold roomserviceBranches
      by_cases he : envVal = ""
      · subst he
        rw [show splitSpace "" = [""] from rfl]
        simp [hP]
      · have he' : (envVal == "") = false := by simp [he]
        rw [he', if_neg (by simp)]
        refine find?_filter_of_imp _ _ (fun x hx => ?_) _
        obtain rfl : x = "" := by simpa using hx
        exact hP

/-- C1 witness: default revision `lineage-20` absent from branches `[main]`
and tags `[v1]`; fallback list `x v1` resolves to `v1`, its first entry among
the combined names. -/
theorem resolveRevision_three_tier_order_witness :
    resolveRevision [⟨"main"⟩] [⟨"v1"⟩] "lineage-20" "x v1" = some "v1" ∧
    resolveRevision [⟨"main"⟩] [⟨"v1"⟩] "lineage-20" "x v1" =
      (if has_branch [⟨"main"⟩] "lineage-20" then some "lineage-20"
       else if has_branch ([⟨"main"⟩] ++ [⟨"v1"⟩]) "lineage-20" then
         some "lineage-20"
       else (splitSpace "x v1").find?
              (fun fallback => has_branch ([⟨"main"⟩] ++ [⟨"v1"⟩]) fallback)) :=
  ⟨by decide, resolveRevision_three_tier_order _ _ _ _ (by decide)⟩

/-- C6 fails as stated: the device identifier is interpolated into the
pattern unescaped, so for the device identifier `a.b` the filter accepts the
candidate name `android_device_x_aXb`, whose device segment is not literally
`a.b`. -/
theorem repoNameMatches_interprets_dot :
    repoNameMatches "a.b" "android_device_x_aXb" = true ∧
    literalNameMatches "a.b" "android_device_x_aXb" = false := by
  constructor
  · decide
  · decide

/-- C6 amended: for device identifiers free of regular-expression
metacharacters (no character in `regexSpecials`), the interpolated fragment
is literal, so the filter accepts a candidate exactly when its name matches
the pattern with the device segment compared literally, and the candidate
processed is the first accepted one in API response order.  The hypothesis
matches the domain on which `deviceToks` is a faithful translation of the
unescaped interpolation: every device character is a literal token both here
and in Python. -/
theorem selectedRepository_literal_of_no_specials (device : String)
    (repositories : List SearchItem)
    (h : ∀ c ∈ device.data, c ∉ regexSpecials) :
    selectedRepository device repositories
      = repositories.find?
          (fun repository => literalNameMatches device repository.name) := by
  have hd : deviceToks device = device.data.map RTok.lit := by
    unfold deviceToks
    refine List.map_congr_left (fun c hc => ?_)
    have hne : c ≠ '.' := fun e => h c hc (by rw [e]; decide)
    simp [hne]
  simp only [selectedRepository, repoNameMatches, literalNameMatches, hd]

/-- C6 witness: for the metacharacter-free device identifier `widget`, the
second candidate is the first literal match and is the one selected. -/
theorem selectedRepository_literal_of_no_specials_witness :
    selectedRepository "widget"
        [⟨"android_device_no"⟩, ⟨"android_device_acme_widget"⟩]
      = ([(⟨"android_device_no"⟩ : SearchItem), ⟨"android_device_acme_widget"⟩].find?
          (fun repository => literalNameMatches "widget" repository.name)) ∧
    selectedRepository "widget"
        [⟨"android_device_no"⟩, ⟨"android_device_acme_widget"⟩]
      = some ⟨"android_device_acme_widget"⟩ :=
  ⟨selectedRepository_literal_of_no_specials "widget" _ (by decide), by decide⟩

/-- C5 fails as stated: the membership check inside one `add_to_manifest`
call reads the on-disk documents, which are rewritten only after the loop, so
a single batch holding two records with the same target path appends two
entries for that path even starting from an invariant-satisfying (empty)
state. -/
theorem add_to_manifest_duplicate_batch_breaks_invariant :
    (∀ pp, stateEntriesFor emptyState pp ≤ 1) ∧
    ¬ (∀ pp, stateEntriesFor (add_to_manifest emptyState dupBatch none) pp ≤ 1) := by
  constructor
  · intro pp
    simp [stateEntriesFor, entriesFor, emptyState]
  · intro hall
    have h := hall "vendor/dup"
    revert h
    decide

/-- C5 amended: `add_to_manifest` preserves the at-most-one-entry-per-path
invariant provided no two records of the batch share a target path. -/
theorem add_to_manifest_preserves_at_most_one_of_nodup (st : ManifestState)
    (rs : List DepRecord) (fb : Option String)
    (hst : ∀ pp, stateEntriesFor st pp ≤ 1)
    (hrs : (rs.map (fun r => r.target_path)).Nodup) :
    ∀ pp, stateEntriesFor (add_to_manifest st rs fb) pp ≤ 1 := by
  intro pp
  rw [stateEntriesFor_add]
  by_cases h : is_in_manifest st pp = true
  · have hz : (rs.filter (fun r => !is_in_manifest st r.target_path)).countP
        (fun r => r.target_path == pp) = 0 := by
      rw [List.countP_eq_zero]
      intro r hr hpp
      obtain hpp' : r.target_path = pp := by simpa using hpp
      have hf := (List.mem_filter.mp hr).2
      rw [hpp'] at hf
      simp [h] at hf
    have hle := hst pp
    omega
  · have h0 : stateEntriesFor st pp = 0 := by
      by_contra hne
      exact h ((is_in_manifest_iff_pos st pp).mpr (Nat.pos_of_ne_zero hne))
    have hle1 : (rs.filter (fun r => !is_in_manifest st r.target_path)).countP
        (fun r => r.target_path == pp) ≤ rs.countP (fun r => r.target_path == pp) :=
      (List.filter_sublist rs).countP_le _
    have hcount : rs.countP (fun r => r.target_path == pp)
        = (rs.map (fun r => r.target_path)).count pp := by
      rw [List.count_eq_countP, List.countP_map]
      rfl
    have hnod := List.nodup_iff_count_le_one.mp hrs pp
    omega

/-- C5 witness: a duplicate-free single-record batch on the empty state keeps
the invariant at the record's path. -/
theorem add_to_manifest_preserves_at_most_one_of_nodup_witness :
    stateEntriesFor (add_to_manifest emptyState singleBatch none) "vendor/a" ≤ 1 :=
  add_to_manifest_preserves_at_most_one_of_nodup emptyState singleBatch none
    (fun pp => by simp [stateEntriesFor, entriesFor, emptyState])
    (by decide) "vendor/a"

/-- C2 fails as stated: with a batch whose two records share one target path,
calling `add_to_manifest` twice leaves two entries for that path, not exactly
one (the duplication already happens during the first call). -/
theorem add_to_manifest_twice_duplicate_path :
    ¬ ∀ r ∈ dupBatch,
        stateEntriesFor
          (add_to_manifest (add_to_manifest emptyState dupBatch none) dupBatch none)
          r.target_path = 1 := by
  decide

/-- C2 amended: the second identical `add_to_manifest` call appends nothing
and returns the state unchanged (unconditionally); and when the batch's
target paths are pairwise distinct and start with at most one pre-existing
entry each, the state after the calls holds exactly one entry per batch
path. -/
theorem add_to_manifest_idempotent_of_nodup (st : ManifestState)
    (rs : List DepRecord) (fb : Option String) :
    add_to_manifest (add_to_manifest st rs fb) rs fb = add_to_manifest st rs fb ∧
    ((rs.map (fun r => r.target_path)).Nodup →
      (∀ r ∈ rs, stateEntriesFor st r.target_path ≤ 1) →
      ∀ r ∈ rs, stateEntriesFor (add_to_manifest st rs fb) r.target_path = 1) := by
  constructor
  · rw [add_to_manifest_eq (add_to_manifest st rs fb) rs fb]
    have hnil : rs.filter
        (fun r => !is_in_manifest (add_to_manifest st rs fb) r.target_path) = [] := by
      rw [List.filter_eq_nil_iff]
      intro r hr
      simp [is_in_manifest_add_of_mem st rs fb r hr]
    rw [hnil]
    simp
  · intro hnd hle r hr
    rw [stateEntriesFor_add]
    by_cases h : is_in_manifest st r.target_path = true
    · have hz : (rs.filter (fun x => !is_in_manifest st x.target_path)).countP
          (fun x => x.target_path == r.target_path) = 0 := by
        rw [List.countP_eq_zero]
        intro x hx hxp
        obtain hxp' : x.target_path = r.target_path := by simpa using hxp
        have hf := (List.mem_filter.mp hx).2
        rw [hxp'] at hf
        simp [h] at hf
      have h1 : 0 < stateEntriesFor st r.target_path :=
        (is_in_manifest_iff_pos st r.target_path).mp h
      have h2 := hle r hr
      omega
    · have h0 : stateEntriesFor st r.target_path = 0 := by
        by_contra hne
        exact h ((is_in_manifest_iff_pos st r.target_path).mpr
          (Nat.pos_of_ne_zero hne))
      have hcp : (rs.filter (fun x => !is_in_manifest st x.target_path)).countP
          (fun x => x.target_path == r.target_path)
          = rs.countP (fun x => x.target_path == r.target_path) := by
        rw [List.countP_filter]
        refine List.countP_congr (fun x _ => ?_)
        simp only [Bool.and_eq_true]
        constructor
        · exact fun hx1 => hx1.1
        · intro hx1
          refine ⟨hx1, ?_⟩
          obtain hxp : x.target_path = r.target_path := by simpa using hx1
          rw [hxp, Bool.eq_false_iff.mpr h]
          rfl
      have hcount : rs.countP (fun x => x.target_path == r.target_path)
          = (rs.map (fun x => x.target_path)).count r.target_path := by
        rw [List.count_eq_countP, List.countP_map]
        rfl
      have hpos : 0 < (rs.map (fun x => x.target_path)).count r.target_path :=
        List.count_pos_iff.mpr (List.mem_map_of_mem _ hr)
      have hnod := List.nodup_iff_count_le_one.mp hnd r.target_path
      omega

/-- C2 witness: a duplicate-free single-record batch on the empty state —
the second call is the identity and the path ends with exactly one entry. -/
theorem add_to_manifest_idempotent_of_nodup_witness :
    add_to_manifest (add_to_manifest emptyState singleBatch none) singleBatch none
      = add_to_manifest emptyState singleBatch none ∧
    stateEntriesFor (add_to_manifest emptyState singleBatch none) "vendor/a" = 1 :=
  ⟨(add_to_manifest_idempotent_of_nodup emptyState singleBatch none).1,
   (add_to_manifest_idempotent_of_nodup emptyState singleBatch none).2 (by decide)
     (by decide) ⟨"android_vendor_a", "vendor/a", none⟩ (by decide)⟩

/-- C4 fails as stated: in the spec's scenario the dependency is both absent
from every manifest and missing on disk, so its path is appended to
`syncable_repos` twice (lines 228 and 231) and the sync trigger receives the
path list with `vendor/foo` twice, not `["vendor/foo"]`. -/
theorem fetch_dependencies_sync_list_duplicated :
    (fetch_dependencies_step c4Env emptyState "device/acme/widget"
        none).syncCommandPaths
      = some ["vendor/foo", "vendor/foo"] ∧
    some ["vendor/foo", "vendor/foo"] ≠ some ["vendor/foo"] := by
  constructor
  · decide
  · decide

/-- C4 amended: the walker appends exactly one manifest entry for
`vendor/foo` (remote `github`, name prefixed with the constant organization,
no revision), invokes sync with the path list holding `vendor/foo` twice
(once for manifest absence, once for directory absence), and recurses into
`fetch_dependencies("vendor/foo")` with no fallback. -/
theorem fetch_dependencies_vendor_foo_scenario :
    fetch_dependencies_step c4Env emptyState "device/acme/widget" none =
      { finalState := ⟨[⟨some "vendor/foo", some "LineageOS/android_vendor_foo",
          some "github", none⟩], [], []⟩
        fetch_list := [c4Dep]
        syncable_repos := ["vendor/foo", "vendor/foo"]
        verify_repos := ["vendor/foo"]
        syncCommandPaths := some ["vendor/foo", "vendor/foo"]
        recursiveCalls := [("vendor/foo", none)] } := by
  decide

/-- C8: when the default revision is absent from the combined branch+tag
names and every `ROOMSERVICE_BRANCHES` fallback is absent too, the candidate
processing bails: the outcome carries the attempted default revision and the
full list of known branch/tag names, and the manifest state is returned
unchanged — no entry is written on this path. -/
theorem processFoundRepo_bails_without_write (repo_name device : String)
    (branches tags : List Branch) (default_revision envVal : String)
    (st : ManifestState)
    (hd : has_branch (branches ++ tags) default_revision = false)
    (hfb : ∀ fallback ∈ roomserviceBranches envVal,
        has_branch (branches ++ tags) fallback = false) :
    processFoundRepo repo_name device branches tags default_revision envVal st
      = (st, MainOutcome.bailed default_revision
              ((branches ++ tags).map (fun branch => branch.name))) := by
  have hb : has_branch branches default_revision = false := by
    rw [Bool.eq_false_iff]
    intro hbt
    rw [Bool.eq_false_iff] at hd
    apply hd
    simp only [has_branch, List.map_append] at hbt ⊢
    obtain ⟨x, hx, hbeq⟩ := List.contains_iff_exists_mem_beq.mp hbt
    exact List.contains_iff_exists_mem_beq.mpr ⟨x, List.mem_append_left _ hx, hbeq⟩
  have hfind : (roomserviceBranches envVal).find?
      (fun fallback => has_branch (branches ++ tags) fallback) = none := by
    rw [List.find?_eq_none]
    intro x hx
    simp [hfb x hx]
  unfold processFoundRepo
  simp only [hb, Bool.false_eq_true, if_false, hd, hfind]

/-- C8 witness: default revision `lineage-20`, branches `[main]`, tags
`[v1]`, fallbacks `x y`, none matching: the state is returned untouched with
the bail outcome listing both known names. -/
theorem processFoundRepo_bails_without_write_witness :
    processFoundRepo "android_device_acme_widget" "widget" [⟨"main"⟩] [⟨"v1"⟩]
        "lineage-20" "x y" emptyState
      = (emptyState, MainOutcome.bailed "lineage-20" ["main", "v1"]) :=
  processFoundRepo_bails_without_write _ _ _ _ _ _ _ (by decide) (by decide)

end Roomservice
